import Mathlib

/-!
Shallow embedding of the auction lifecycle core of the FC-Action repository
(`internal/infra/database/auction/create_auction.go` and the spec'd
collaborators). Time is modelled as `Int` nanoseconds since the Unix epoch,
matching Go's `time.Duration`/`time.Time` arithmetic; 64-bit machine
arithmetic is made explicit with a two's-complement wrap where Go can
overflow. The MongoDB collection is modelled as a `List` of records, and
`FindOneAndUpdate` as the update of the first record matching the filter,
which is how the store linearizes conditional writes per record.
-/

namespace FCAction

/-- Status constants from `create_auction.go`: `const ( Active = iota; Finished )`. -/
def Active : Nat := 0

/-- Second status constant: `Finished = 1`. -/
def Finished : Nat := 1

/-- Nanoseconds per second; Go's `time.Second`. -/
def nsPerSecond : Int := 1000000000

/-- Go's `time.Time.Unix()`: whole seconds since the epoch. Go stores a time
as whole seconds plus a nanosecond field in `[0, 1e9)`, so `Unix()` is the
floor of the nanosecond instant divided by `1e9` (`Int` division here is
Euclidean division, which is that floor for a positive divisor). -/
def goUnix (tNanos : Int) : Int := tNanos / nsPerSecond

/-- Go's `time.Unix(secs, 0)`: the instant at `secs` whole seconds. -/
def timeUnixNanos (secs : Int) : Int := secs * nsPerSecond

/-- Two's-complement wrap to signed 64 bits, the behaviour of Go `int64`
arithmetic on overflow (e.g. `time.Duration(secs) * time.Second`). -/
def wrap64 (x : Int) : Int := (x + 2 ^ 63) % 2 ^ 64 - 2 ^ 63

/-- One decimal digit step of `strconv.Atoi`'s accumulation. -/
def parseDigitsAux : List Char → Nat → Option Nat
  | [], acc => some acc
  | c :: cs, acc =>
      if c.isDigit then parseDigitsAux cs (acc * 10 + (c.toNat - 48)) else none

/-- Go's `strconv.Atoi(s)` = `ParseInt(s, 10, 0)` on a 64-bit platform:
an optional sign followed by at least one decimal digit; any other shape,
and any value outside the signed 64-bit range, yields a non-nil error,
modelled as `none`. -/
def atoi (s : String) : Option Int :=
  match s.data with
  | [] => none
  | c :: cs =>
      let signed : Bool × List Char :=
        if c = '-' then (true, cs)
        else if c = '+' then (false, cs)
        else (false, c :: cs)
      match signed.2 with
      | [] => none
      | ds =>
          match parseDigitsAux ds 0 with
          | none => none
          | some n =>
              let v : Int := if signed.1 then -(n : Int) else (n : Int)
              if v < -(2 ^ 63) ∨ 2 ^ 63 ≤ v then none else some v

/-- The embedding of `getAuctionDuration`: reads `AUCTION_DURATION_SECONDS`
(`env`; the empty string is Go's unset result), falls back to 600 seconds on
empty, unparseable or non-positive values, and otherwise computes
`time.Duration(secs) * time.Second`, a 64-bit multiplication that wraps.
The result is a duration in nanoseconds. -/
def getAuctionDuration (env : String) : Int :=
  if env = "" then 600 * nsPerSecond
  else
    match atoi env with
    | none => 600 * nsPerSecond
    | some secs => if secs ≤ 0 then 600 * nsPerSecond else wrap64 (secs * nsPerSecond)

/-- Mongo auction record (`AuctionEntityMongo`); `Timestamp` holds whole Unix
seconds, as persisted by `auctionEntity.Timestamp.Unix()`. -/
structure AuctionEntityMongo where
  Id : String
  ProductName : String
  Category : String
  Description : String
  Condition : Nat
  Status : Nat
  Timestamp : Int
deriving DecidableEq

/-- The `remaining` computation of `CreateAuction`:
`if elapsed >= duration { remaining = 0 } else { remaining = duration - elapsed }`. -/
def computeRemaining (duration elapsed : Int) : Int :=
  if elapsed ≥ duration then 0 else duration - elapsed

/-- Whether the goroutine arms a `time.NewTimer`: the guard `wait > 0`. -/
def timerArmed (wait : Int) : Bool := decide (wait > 0)

/-- The delay the goroutine actually sleeps before the close attempt:
`wait` when the timer is armed, zero otherwise (immediate invocation). -/
def closeDelay (wait : Int) : Int := if wait > 0 then wait else 0

/-- The embedding of the goroutine's
`FindOneAndUpdate(filter := (_id = id AND status = Active), set status := Finished)`
with `ReturnDocument(After)`: update the first record matching the filter and
return it, or return `none` (Mongo's `ErrNoDocuments`) leaving the store
untouched. -/
def findOneAndUpdateClose :
    List AuctionEntityMongo → String → List AuctionEntityMongo × Option AuctionEntityMongo
  | [], _ => ([], none)
  | r :: rs, id =>
      if r.Id = id ∧ r.Status = Active then
        ({ r with Status := Finished } :: rs, some { r with Status := Finished })
      else
        let p := findOneAndUpdateClose rs id
        (r :: p.1, p.2)

/-- Go `context.Context`, reduced to the one observable the code uses: the
deadline. `context.Background()` has no deadline. -/
structure Context where
  deadline : Option Int
deriving DecidableEq

/-- Go's `context.Background()`. -/
def Context.background : Context := ⟨none⟩

/-- Go's `context.WithTimeout(parent, d)` taken at instant `now`: the child
deadline is `now + d`, capped by the parent's deadline when one exists. -/
def Context.withTimeout (parent : Context) (now d : Int) : Context :=
  ⟨some (match parent.deadline with
    | none => now + d
    | some pd => min pd (now + d))⟩

/-- The timeout of the goroutine's update context: `10 * time.Second`. -/
def updateCtxTimeoutNs : Int := 10 * nsPerSecond

/-- The context the closing goroutine builds for its store operation:
`context.WithTimeout(context.Background(), 10*time.Second)`. The caller's
context (`callerCtx`, in scope in the Go closure) is deliberately not used. -/
def closeAttemptContext (callerCtx : Context) (fireAt : Int) : Context :=
  let _ := callerCtx
  Context.withTimeout Context.background fireAt updateCtxTimeoutNs

/-- What the closing goroutine logs on each terminal path. -/
inductive CloseLog where
  /-- `logger.Info("Auction auto-closed")`: the conditional update matched. -/
  | closedOk
  /-- `logger.Info("Auction already closed or not found, skipping auto-close")`:
  `ErrNoDocuments`, a successful no-op. -/
  | skippedNoMatch
  /-- `logger.Error("Error auto-closing auction", err)`: any other store
  error, including the update context's deadline being exceeded. -/
  | errorLogged
deriving DecidableEq

/-- One run of the closing goroutine's body after its wait: a single
`FindOneAndUpdate` call, with `storeFault` true when that call fails for any
reason other than no-match (timeout, store down). A faulted call does not
commit; every path only logs and returns — there is no retry and no error
propagation out of the goroutine. -/
def autoCloseAttempt (store : List AuctionEntityMongo) (auctionID : String)
    (storeFault : Bool) : List AuctionEntityMongo × CloseLog :=
  if storeFault then (store, CloseLog.errorLogged)
  else
    match findOneAndUpdateClose store auctionID with
    | (store1, some _) => (store1, CloseLog.closedOk)
    | (store1, none) => (store1, CloseLog.skippedNoMatch)

/-- The domain auction entity (`auction_entity.Auction`), with the fields
`CreateAuction` reads. `Timestamp` is an instant in nanoseconds; `none`
models Go's zero `time.Time` (`IsZero()`). -/
structure Auction where
  Id : String
  ProductName : String
  Category : String
  Description : String
  Condition : Nat
  Status : Nat
  Timestamp : Option Int
deriving DecidableEq

/-- The `if auctionEntity.Timestamp.IsZero() { auctionEntity.Timestamp = time.Now() }`
defaulting at the head of `CreateAuction`. -/
def effectiveTimestamp (entityTs : Option Int) (now : Int) : Int :=
  match entityTs with
  | none => now
  | some t => t

/-- Mongo `InsertOne`: fails (`none`) on a store fault or a duplicate `_id`
(primary-key violation), otherwise appends the record. -/
def insertOne (store : List AuctionEntityMongo) (rec : AuctionEntityMongo)
    (fault : Bool) : Option (List AuctionEntityMongo) :=
  if fault || store.any (fun r => r.Id == rec.Id) then none else some (store ++ [rec])

/-- Result of the creation path: the store after the insert, the value
returned to the caller (`some msg` embeds the `*internal_error.InternalError`,
`none` the Go `nil`), and the spawned closing goroutine's captured arguments
`(auctionID, wait)` — `none` when no goroutine was spawned. -/
structure CreateOutcome where
  store : List AuctionEntityMongo
  err : Option String
  task : Option (String × Int)
deriving DecidableEq

/-- The embedding of `AuctionRepository.CreateAuction`. `now` is the instant
of the call (the code reads the clock twice, at `time.Now()` and at
`time.Since`; a single instant models the creation path, which runs without
suspension between the two reads). On insert failure it returns the internal
error and spawns nothing; otherwise it computes `remaining` from the
truncated persisted timestamp and spawns the closing goroutine. -/
def CreateAuction (ctx : Context) (store : List AuctionEntityMongo) (a : Auction)
    (env : String) (now : Int) (insertFault : Bool) : CreateOutcome :=
  let _ := ctx
  let ts := effectiveTimestamp a.Timestamp now
  let mongoDoc : AuctionEntityMongo :=
    { Id := a.Id, ProductName := a.ProductName, Category := a.Category
      Description := a.Description, Condition := a.Condition
      Status := a.Status, Timestamp := goUnix ts }
  match insertOne store mongoDoc insertFault with
  | none => { store := store, err := some "Error trying to insert auction", task := none }
  | some store1 =>
      let duration := getAuctionDuration env
      let createdAt := timeUnixNanos mongoDoc.Timestamp
      let elapsed := now - createdAt
      let remaining := computeRemaining duration elapsed
      { store := store1, err := none, task := some (mongoDoc.Id, remaining) }

/-- The instant the spawned goroutine reaches its store operation: the spawn
instant plus the armed timer's wait (zero wait fires immediately). -/
def fireTime (spawnedAt wait : Int) : Int := spawnedAt + closeDelay wait

/-- `n` close attempts for the same identifier, in the order the store
linearizes them (each attempt is one atomic conditional update, so any
concurrent execution of `n` attempts is some such sequence). Returns the
final store and, per attempt, whether it observed a match. -/
def closeTrace : Nat → List AuctionEntityMongo → String → List AuctionEntityMongo × List Bool
  | 0, store, _ => (store, [])
  | n + 1, store, id =>
      let p := findOneAndUpdateClose store id
      let q := closeTrace n p.1 id
      (q.1, p.2.isSome :: q.2)

/-- A bid record (`bid_entity.Bid`). -/
structure Bid where
  Id : String
  UserId : String
  AuctionId : String
  Amount : Int
  Timestamp : Int
deriving DecidableEq

/-- Outcome of a bid-placement attempt. -/
inductive BidOutcome where
  /-- The bid was admitted and persisted. -/
  | accepted
  /-- Domain error `AuctionClosed`; the bid is not persisted. -/
  | auctionClosed
  /-- The identifier resolves to no auction. -/
  | auctionNotFound
deriving DecidableEq

/-- Modelled from the spec: the bid-placement use case (the Bid Acceptance
Gate of §4.4) is not among the source files (only the bid find use case is).
Per the spec it reads the current auction status from the store at the moment
of the attempt; if the status is not Open it rejects with the domain error
`AuctionClosed` and never persists the bid; if Open it persists the bid. -/
def placeBid (auctions : List AuctionEntityMongo) (bids : List Bid) (b : Bid) :
    List Bid × BidOutcome :=
  match auctions.find? (fun r => r.Id == b.AuctionId) with
  | none => (bids, BidOutcome.auctionNotFound)
  | some a =>
      if a.Status = Active then (bids ++ [b], BidOutcome.accepted)
      else (bids, BidOutcome.auctionClosed)

/-- Modelled from the spec: the reconciliation interface
`rescheduleAll(openAuctions)` of §4.2 is specified as exposed by the core but
is absent from the reference implementation (spec §9). Per the spec's words
it re-arms scheduling for all still-Open auctions, re-deriving each remaining
wait from the persisted `createdAt` exactly as the creation-path scheduler
does. Returns the `(auctionID, wait)` pairs to arm. -/
def rescheduleAll (store : List AuctionEntityMongo) (now dur : Int) :
    List (String × Int) :=
  (store.filter (fun r => r.Status == Active)).map
    (fun r => (r.Id, computeRemaining dur (now - timeUnixNanos r.Timestamp)))

/-- A sample already-closed record, used by concrete witnesses. -/
def sampleClosed : AuctionEntityMongo :=
  { Id := "a1", ProductName := "p", Category := "c", Description := "d"
    Condition := 0, Status := Finished, Timestamp := 0 }

/-- A sample open record, used by concrete witnesses. -/
def sampleOpen : AuctionEntityMongo :=
  { Id := "a2", ProductName := "p", Category := "c", Description := "d"
    Condition := 0, Status := Active, Timestamp := 0 }

/-- A sample auction entity, used by concrete witnesses. -/
def sampleAuction : Auction :=
  { Id := "a3", ProductName := "p", Category := "c", Description := "d"
    Condition := 0, Status := Active, Timestamp := some 0 }

/-- A sample bid, used by concrete witnesses. -/
def sampleBid : Bid :=
  { Id := "b1", UserId := "u1", AuctionId := "a1", Amount := 10, Timestamp := 0 }

lemma close_noMatch (store : List AuctionEntityMongo) (id : String)
    (h : ∀ r ∈ store, ¬(r.Id = id ∧ r.Status = Active)) :
    findOneAndUpdateClose store id = (store, none) := by
  induction store with
  | nil => rfl
  | cons r rs ih =>
      have hr := h r (by simp)
      have hrs : ∀ x ∈ rs, ¬(x.Id = id ∧ x.Status = Active) := fun x hx => h x (by simp [hx])
      simp [findOneAndUpdateClose, hr, ih hrs]

lemma closeTrace_noMatch (n : Nat) (store : List AuctionEntityMongo) (id : String)
    (h : ∀ r ∈ store, ¬(r.Id = id ∧ r.Status = Active)) :
    closeTrace n store id = (store, List.replicate n false) := by
  induction n with
  | zero => rfl
  | succ m ih => simp [closeTrace, close_noMatch store id h, ih, List.replicate_succ]

lemma close_uniqueOpen (store : List AuctionEntityMongo) (id : String)
    (hcount : store.countP (fun r => r.Id == id) = 1)
    (hopen : ∀ r ∈ store, r.Id = id → r.Status = Active) :
    (findOneAndUpdateClose store id).2.isSome = true
    ∧ ∀ r ∈ (findOneAndUpdateClose store id).1, r.Id = id → r.Status = Finished := by
  induction store with
  | nil => simp at hcount
  | cons r rs ih =>
      by_cases hid : r.Id = id
      · have hact : r.Status = Active := hopen r (by simp) hid
        have hcrs : rs.countP (fun x => x.Id == id) = 0 := by
          simpa [List.countP_cons, hid] using hcount
        have hnone : ∀ x ∈ rs, x.Id ≠ id := by
          intro x hx
          have := (List.countP_eq_zero.mp hcrs) x hx
          simpa using this
        simp only [findOneAndUpdateClose, if_pos (And.intro hid hact)]
        refine ⟨rfl, ?_⟩
        intro x hx hxid
        rcases List.mem_cons.mp hx with hhead | htail
        · subst hhead; rfl
        · exact absurd hxid (hnone x htail)
      · have hcrs : rs.countP (fun x => x.Id == id) = 1 := by
          simpa [List.countP_cons, hid] using hcount
        have hors : ∀ x ∈ rs, x.Id = id → x.Status = Active :=
          fun x hx => hopen x (by simp [hx])
        have hnot : ¬(r.Id = id ∧ r.Status = Active) := fun hc => hid hc.1
        obtain ⟨ih1, ih2⟩ := ih hcrs hors
        simp only [findOneAndUpdateClose, if_neg hnot]
        refine ⟨ih1, ?_⟩
        intro x hx hxid
        rcases List.mem_cons.mp hx with hhead | htail
        · subst hhead; exact absurd hxid hid
        · exact ih2 x htail hxid

lemma close_someOfExists (store : List AuctionEntityMongo) (id : String)
    (h : ∃ r ∈ store, r.Id = id ∧ r.Status = Active) :
    (findOneAndUpdateClose store id).2.isSome = true := by
  induction store with
  | nil => simp at h
  | cons r rs ih =>
      by_cases hr : r.Id = id ∧ r.Status = Active
      · simp [findOneAndUpdateClose, hr]
      · have : ∃ x ∈ rs, x.Id = id ∧ x.Status = Active := by
          rcases h with ⟨x, hx, hxp⟩
          rcases List.mem_cons.mp hx with hhead | htail
          · exact absurd (hhead ▸ hxp) hr
          · exact ⟨x, htail, hxp⟩
        simp [findOneAndUpdateClose, hr, ih this]

lemma close_changesOnly (store : List AuctionEntityMongo) (id : String) :
    ∀ r' ∈ (findOneAndUpdateClose store id).1,
      r' ∈ store ∨ ∃ r ∈ store, r.Status = Active ∧ r' = { r with Status := Finished } := by
  induction store with
  | nil => simp [findOneAndUpdateClose]
  | cons r rs ih =>
      by_cases hr : r.Id = id ∧ r.Status = Active
      · simp only [findOneAndUpdateClose, if_pos hr]
        intro r' hr'
        rcases List.mem_cons.mp hr' with hhead | htail
        · exact Or.inr ⟨r, by simp, hr.2, hhead⟩
        · exact Or.inl (by simp [htail])
      · simp only [findOneAndUpdateClose, if_neg hr]
        intro r' hr'
        rcases List.mem_cons.mp hr' with hhead | htail
        · exact Or.inl (by simp [hhead])
        · rcases ih r' htail with h1 | ⟨x, hx, hxa, hxe⟩
          · exact Or.inl (by simp [h1])
          · exact Or.inr ⟨x, by simp [hx], hxa, hxe⟩

lemma wrap64_eq_self (x : Int) (h1 : -(2 ^ 63) ≤ x) (h2 : x < 2 ^ 63) :
    wrap64 x = x := by
  unfold wrap64
  rw [Int.emod_eq_of_lt (by omega) (by omega)]
  omega

/-- C3: the close attempt is a single conditional update filtering on
`_id = id AND status = Active` (`findOneAndUpdateClose` embeds exactly that
filter); when nothing matches — the auction already Closed or absent — the
store is left unmodified, the attempt logs the skip at informational level
and completes successfully (no error path is taken). -/
theorem close_noMatch_is_successful_noop (store : List AuctionEntityMongo) (id : String)
    (h : ∀ r ∈ store, ¬(r.Id = id ∧ r.Status = Active)) :
    findOneAndUpdateClose store id = (store, none)
    ∧ autoCloseAttempt store id false = (store, CloseLog.skippedNoMatch) := by
  have h1 := close_noMatch store id h
  exact ⟨h1, by simp [autoCloseAttempt, h1]⟩

/-- Witness for C3 at a store holding one already-closed record. -/
theorem close_noMatch_is_successful_noop_witness :
    findOneAndUpdateClose [sampleClosed] "a1" = ([sampleClosed], none)
    ∧ autoCloseAttempt [sampleClosed] "a1" false = ([sampleClosed], CloseLog.skippedNoMatch) :=
  close_noMatch_is_successful_noop [sampleClosed] "a1" (by decide)

/-- C4: the scheduler's wait is `remaining = max(0, duration - elapsed)`,
and a zero `remaining` arms no timer: the goroutine's guard `wait > 0` is
false, so the close attempt fires at the spawn instant with no delay. -/
theorem remaining_is_clamped_and_zero_fires_immediately (duration elapsed spawnedAt : Int) :
    computeRemaining duration elapsed = max 0 (duration - elapsed)
    ∧ (computeRemaining duration elapsed = 0 →
        timerArmed (computeRemaining duration elapsed) = false
        ∧ fireTime spawnedAt (computeRemaining duration elapsed) = spawnedAt) := by
  constructor
  · unfold computeRemaining
    split
    · exact (max_eq_left (by omega)).symm
    · exact (max_eq_right (by omega)).symm
  · intro h0
    rw [h0]
    simp [timerArmed, fireTime, closeDelay]

/-- Witness for C4 at an already-elapsed auction: duration 5, elapsed 9. -/
theorem remaining_is_clamped_and_zero_fires_immediately_witness :
    timerArmed (computeRemaining 5 9) = false ∧ fireTime 3 (computeRemaining 5 9) = 3 :=
  (remaining_is_clamped_and_zero_fires_immediately 5 9 3).2 (by decide)

/-- C10: when the insert fails (store fault or duplicate identifier),
`CreateAuction` returns the internal error, leaves the store as it was, and
spawns no closing goroutine — no timer is armed and no conditional close
attempt will run for this call. -/
theorem insert_failure_spawns_no_close (ctx : Context) (store : List AuctionEntityMongo)
    (a : Auction) (env : String) (now : Int) (fault : Bool)
    (h : fault = true ∨ store.any (fun r => r.Id == a.Id) = true) :
    (CreateAuction ctx store a env now fault).err = some "Error trying to insert auction"
    ∧ (CreateAuction ctx store a env now fault).task = none
    ∧ (CreateAuction ctx store a env now fault).store = store := by
  have hins : insertOne store
      { Id := a.Id, ProductName := a.ProductName, Category := a.Category
        Description := a.Description, Condition := a.Condition
        Status := a.Status, Timestamp := goUnix (effectiveTimestamp a.Timestamp now) }
      fault = none := by
    rcases h with h | h <;> simp [insertOne, h]
  simp [CreateAuction, hins]

/-- Witness for C10 at a faulted insert into an empty store. -/
theorem insert_failure_spawns_no_close_witness :
    (CreateAuction ⟨none⟩ [] sampleAuction "" 0 true).err = some "Error trying to insert auction"
    ∧ (CreateAuction ⟨none⟩ [] sampleAuction "" 0 true).task = none
    ∧ (CreateAuction ⟨none⟩ [] sampleAuction "" 0 true).store = [] :=
  insert_failure_spawns_no_close ⟨none⟩ [] sampleAuction "" 0 true (Or.inl rfl)

/-- C1: with exactly one record for the identifier and that record Open,
any linearization of N ≥ 1 concurrent close attempts (each attempt is one
atomic conditional update, so every concurrent execution is some such
sequence) observes exactly one match, N − 1 no-match results, and leaves the
stored status Closed. -/
theorem concurrent_close_exactly_once (n : Nat) (store : List AuctionEntityMongo)
    (id : String) (hn : 1 ≤ n)
    (hcount : store.countP (fun r => r.Id == id) = 1)
    (hopen : ∀ r ∈ store, r.Id = id → r.Status = Active) :
    (closeTrace n store id).2.count true = 1
    ∧ (closeTrace n store id).2.count false = n - 1
    ∧ (closeTrace n store id).2.length = n
    ∧ ∀ r ∈ (closeTrace n store id).1, r.Id = id → r.Status = Finished := by
  obtain ⟨m, rfl⟩ : ∃ m, n = m + 1 := ⟨n - 1, by omega⟩
  obtain ⟨h1, h2⟩ := close_uniqueOpen store id hcount hopen
  have hafter : ∀ r ∈ (findOneAndUpdateClose store id).1,
      ¬(r.Id = id ∧ r.Status = Active) := by
    intro r hr hc
    have := h2 r hr hc.1
    rw [this] at hc
    exact absurd hc.2 (by simp [Finished, Active])
  have htr := closeTrace_noMatch m (findOneAndUpdateClose store id).1 id hafter
  have hshape : closeTrace (m + 1) store id =
      ((findOneAndUpdateClose store id).1,
        (findOneAndUpdateClose store id).2.isSome :: List.replicate m false) := by
    simp [closeTrace, htr]
  rw [hshape, h1]
  refine ⟨?_, ?_, ?_, ?_⟩
  · simp [List.count_cons, List.count_replicate]
  · simp [List.count_cons, List.count_replicate]
  · simp
  · exact h2

/-- Witness for C1: two attempts on a one-record open store. -/
theorem concurrent_close_exactly_once_witness :
    (closeTrace 2 [sampleOpen] "a2").2.count true = 1
    ∧ (closeTrace 2 [sampleOpen] "a2").2.count false = 1 :=
  ⟨(concurrent_close_exactly_once 2 [sampleOpen] "a2" (by decide) (by decide) (by decide)).1,
   (concurrent_close_exactly_once 2 [sampleOpen] "a2" (by decide) (by decide) (by decide)).2.1⟩

/-- C2 as amended: the close attempt fires no earlier than
`truncate_to_seconds(T) + D` — the deadline measured from the persisted
whole-second creation timestamp, which can precede the true `T + D` by up to
one second — and no operation of the program ever moves a record out of the
Closed status: the conditional close only rewrites an Open record to Closed,
and an insert leaves every existing record untouched. -/
theorem close_after_truncated_deadline_and_no_reopen (T D now0 : Int)
    (store store' : List AuctionEntityMongo) (id : String)
    (newRec : AuctionEntityMongo) (fault : Bool) :
    fireTime now0 (computeRemaining D (now0 - timeUnixNanos (goUnix T)))
      ≥ timeUnixNanos (goUnix T) + D
    ∧ (∀ r' ∈ (findOneAndUpdateClose store id).1,
        r' ∈ store ∨ ∃ r ∈ store, r.Status = Active ∧ r' = { r with Status := Finished })
    ∧ (insertOne store newRec fault = some store' →
        ∀ r' ∈ store', r' ∈ store ∨ r' = newRec) := by
  refine ⟨?_, close_changesOnly store id, ?_⟩
  · generalize timeUnixNanos (goUnix T) = Tf
    unfold fireTime closeDelay computeRemaining
    split <;> split <;> omega
  · intro hins r' hr'
    unfold insertOne at hins
    split at hins
    · exact absurd hins (by simp)
    · obtain rfl : store ++ [newRec] = store' := by simpa using hins
      rcases List.mem_append.mp hr' with h | h
      · exact Or.inl h
      · exact Or.inr (by simpa using h)

/-- Counterexample to C2 as stated: an auction created at T = 0.5 s (in
nanoseconds) with duration D = 10 s has its close attempt fire at 10 s,
strictly before T + D = 10.5 s, because the goroutine re-derives `createdAt`
from the second-truncated persisted timestamp. -/
theorem close_before_true_deadline_counterexample :
    fireTime 500000000
        (computeRemaining 10000000000 (500000000 - timeUnixNanos (goUnix 500000000)))
      < 500000000 + 10000000000 := by decide

/-- Witness for C2 (amended): the timing bound at concrete values, and the
no-reopen conjunct discharged on a concrete insert. -/
theorem close_after_truncated_deadline_and_no_reopen_witness :
    fireTime 500000000
        (computeRemaining 10000000000 (500000000 - timeUnixNanos (goUnix 500000000)))
      ≥ timeUnixNanos (goUnix 500000000) + 10000000000
    ∧ (sampleClosed ∈ [sampleOpen] ∨ sampleClosed = sampleClosed) :=
  ⟨(close_after_truncated_deadline_and_no_reopen 500000000 10000000000 500000000
      [sampleOpen] [sampleOpen, sampleClosed] "a2" sampleClosed false).1,
   (close_after_truncated_deadline_and_no_reopen 500000000 10000000000 500000000
      [sampleOpen] [sampleOpen, sampleClosed] "a2" sampleClosed false).2.2
      (by decide) sampleClosed (by simp)⟩

/-- C9: the persisted creation timestamp is truncated to whole Unix seconds
(`Timestamp.Unix()`), the goroutine re-derives `createdAt` from that
truncated value (`time.Unix(ts, 0)`), and for any creation instant with a
nonzero fractional second the truncation strictly loses less than one second,
so the close attempt fires strictly before the true creation instant plus
the configured duration. -/
theorem truncated_timestamp_closes_early (T D now0 : Int)
    (hfrac : T % nsPerSecond ≠ 0) (hD : 0 < D) (hnow : now0 = T) :
    timeUnixNanos (goUnix T) < T
    ∧ T - timeUnixNanos (goUnix T) < nsPerSecond
    ∧ fireTime now0 (computeRemaining D (now0 - timeUnixNanos (goUnix T))) < T + D := by
  subst hnow
  unfold timeUnixNanos goUnix nsPerSecond at *
  unfold fireTime closeDelay computeRemaining
  refine ⟨by omega, by omega, ?_⟩
  split <;> split <;> omega

/-- Witness for C9: creation at T = 0.5 s with a 1 s duration. -/
theorem truncated_timestamp_closes_early_witness :
    timeUnixNanos (goUnix 500000000) < 500000000
    ∧ 500000000 - timeUnixNanos (goUnix 500000000) < nsPerSecond
    ∧ fireTime 500000000
        (computeRemaining 1000000000 (500000000 - timeUnixNanos (goUnix 500000000)))
      < 500000000 + 1000000000 :=
  truncated_timestamp_closes_early 500000000 1000000000 500000000
    (by decide) (by decide) rfl

/-- C5 as amended: the empty setting, any unparseable setting (including
values outside the signed 64-bit integer range), and any zero or negative
setting all resolve to the 600-second default, never failing (the resolver
is a total function); a positive integer string resolves to exactly that
many seconds provided its nanosecond equivalent fits a signed 64-bit
integer, i.e. the value is at most 9223372036 — larger parseable values
wrap the 64-bit duration representation instead. -/
theorem duration_setting_resolution (s : String) (k : Int) :
    getAuctionDuration "" = 600 * nsPerSecond
    ∧ (atoi s = none → getAuctionDuration s = 600 * nsPerSecond)
    ∧ (atoi s = some k → k ≤ 0 → getAuctionDuration s = 600 * nsPerSecond)
    ∧ (atoi s = some k → 0 < k → k ≤ 9223372036 →
        getAuctionDuration s = k * nsPerSecond) := by
  have hempty : atoi "" = none := rfl
  refine ⟨rfl, ?_, ?_, ?_⟩
  · intro h
    by_cases hs : s = ""
    · simp [getAuctionDuration, hs]
    · simp [getAuctionDuration, hs, h]
  · intro h hk
    by_cases hs : s = ""
    · rw [hs, hempty] at h; exact absurd h (by simp)
    · simp [getAuctionDuration, hs, h, hk]
  · intro h hk1 hk2
    by_cases hs : s = ""
    · rw [hs, hempty] at h; exact absurd h (by simp)
    · have hpos : ¬k ≤ 0 := by omega
      simp only [getAuctionDuration, hs, if_false, h, hpos, if_neg hpos]
      exact wrap64_eq_self (k * nsPerSecond)
        (by unfold nsPerSecond; omega) (by unfold nsPerSecond; omega)

/-- Counterexample to C5 as stated: "10000000000" is a positive integer
string, but the resolved duration is a wrapped negative 64-bit value, not
10000000000 seconds. -/
theorem duration_overflow_counterexample :
    getAuctionDuration "10000000000" ≠ 10000000000 * nsPerSecond
    ∧ getAuctionDuration "10000000000" < 0 := by decide

/-- Witness for C5 (amended) at the setting "5". -/
theorem duration_setting_resolution_witness :
    getAuctionDuration "5" = 5 * nsPerSecond :=
  (duration_setting_resolution "5" 5).2.2.2 (by decide) (by decide) (by decide)

/-- C6: a bid attempt that finds its auction with a status other than Open
is rejected with the domain error `AuctionClosed` and the bid store is
returned unchanged — no bid record is persisted for the attempt. -/
theorem bid_rejected_when_not_open (auctions : List AuctionEntityMongo)
    (bids : List Bid) (b : Bid) (a : AuctionEntityMongo)
    (hfind : auctions.find? (fun r => r.Id == b.AuctionId) = some a)
    (hclosed : a.Status ≠ Active) :
    placeBid auctions bids b = (bids, BidOutcome.auctionClosed) := by
  simp [placeBid, hfind, hclosed]

/-- Witness for C6: a bid against the closed sample auction. -/
theorem bid_rejected_when_not_open_witness :
    placeBid [sampleClosed] [] sampleBid = ([], BidOutcome.auctionClosed) :=
  bid_rejected_when_not_open [sampleClosed] [] sampleBid sampleClosed
    (by decide) (by decide)

/-- C7: the close attempt's store operation runs under its own 10-second
deadline derived from `context.Background()` — the same deadline for every
caller context, so independent of the caller's lifecycle; when the operation
faults (timeout or any store error) the attempt only logs the error and
abandons — the store is unchanged, nothing is surfaced to the creation
caller (`autoCloseAttempt`'s log is not part of `CreateOutcome`), and no
retry happens inside the attempt; the record is still Open, so a later
non-faulting attempt observes the match and closes it. -/
theorem close_fault_contained_and_retryable (callerCtx : Context) (fireAt : Int)
    (store : List AuctionEntityMongo) (id : String)
    (hopen : ∃ r ∈ store, r.Id = id ∧ r.Status = Active) :
    (closeAttemptContext callerCtx fireAt).deadline = some (fireAt + updateCtxTimeoutNs)
    ∧ autoCloseAttempt store id true = (store, CloseLog.errorLogged)
    ∧ (autoCloseAttempt store id false).2 = CloseLog.closedOk := by
  refine ⟨rfl, by simp [autoCloseAttempt], ?_⟩
  have h := close_someOfExists store id hopen
  unfold autoCloseAttempt
  rcases hsome : (findOneAndUpdateClose store id).2 with _ | u
  · rw [hsome] at h; simp at h
  · simp only [Bool.false_eq_true, if_false]
    rcases hfind : findOneAndUpdateClose store id with ⟨s1, res⟩
    rw [hfind] at hsome
    simp at hsome
    rw [hsome]

/-- Witness for C7 at a caller context that does carry a deadline. -/
theorem close_fault_contained_and_retryable_witness :
    (closeAttemptContext ⟨some 5⟩ 0).deadline = some (0 + updateCtxTimeoutNs)
    ∧ autoCloseAttempt [sampleOpen] "a2" true = ([sampleOpen], CloseLog.errorLogged)
    ∧ (autoCloseAttempt [sampleOpen] "a2" false).2 = CloseLog.closedOk :=
  close_fault_contained_and_retryable ⟨some 5⟩ 0 [sampleOpen] "a2" (by decide)

/-- C8: the spec-modelled `rescheduleAll` arms exactly the still-Open
auctions: a pair `(id, w)` is produced precisely when the store holds an
Open record with that identifier, with `w` the scheduler's remaining wait
re-derived from the record's persisted creation timestamp. -/
theorem rescheduleAll_rearms_still_open (store : List AuctionEntityMongo)
    (now dur : Int) (id : String) (w : Int) :
    (id, w) ∈ rescheduleAll store now dur ↔
      ∃ r ∈ store, r.Status = Active ∧ r.Id = id
        ∧ w = computeRemaining dur (now - timeUnixNanos r.Timestamp) := by
  unfold rescheduleAll
  simp only [List.mem_map, List.mem_filter, Prod.mk.injEq, beq_iff_eq]
  constructor
  · rintro ⟨r, ⟨hr, hst⟩, hid, hw⟩
    exact ⟨r, hr, hst, hid, hw.symm⟩
  · rintro ⟨r, hr, hst, hid, hw⟩
    exact ⟨r, ⟨hr, hst⟩, hid, hw.symm⟩

/-- Witness for C8: the open sample record is re-armed with the re-derived
wait. -/
theorem rescheduleAll_rearms_still_open_witness :
    ("a2", computeRemaining 0 (7 - timeUnixNanos 0)) ∈ rescheduleAll [sampleOpen] 7 0 :=
  (rescheduleAll_rearms_still_open [sampleOpen] 7 0 "a2"
      (computeRemaining 0 (7 - timeUnixNanos 0))).mpr
    ⟨sampleOpen, by simp, rfl, rfl, rfl⟩

end FCAction
